import Mathlib

/-!
# Verification of the fee-collector program

Shallow embedding of `src/programs/fee-collector/src/lib.rs`, an Anchor
(Solana) program with a single instruction `collect_fee`.  The handler
builds a system-program transfer from `from` to `to`, invokes it, and on
success emits one `FeeCollected` event.  The `CollectFee` accounts struct
declares `from : Signer` (signature required, checked by Anchor before the
handler body runs, in field declaration order, hence before the
`system_program : Program<System>` identity check), `to : AccountInfo`
(unchecked), and the system program.

The ledger runtime (account storage, the native transfer primitive and its
atomicity) is not part of the repository; it is modelled from the spec
(§4.1, §5, §6) below.  Balances are u64 lamport counts; we use `Nat` with
the explicit bound `U64MAX` where overflow matters.
-/

namespace FeeCollector

/-- Account address (Solana `Pubkey`), abstracted as a natural number. -/
abbrev Pubkey := Nat

/-- Largest value representable in a u64 lamport balance. -/
def U64MAX : Nat := 2 ^ 64 - 1

/-- The ledger's balance table: each account's lamport balance. -/
abbrev Ledger := Pubkey → Nat

/-- A ledger is valid when every balance fits in a u64, the invariant the
runtime maintains on real account state. -/
def ValidLedger (l : Ledger) : Prop := ∀ k, l k ≤ U64MAX

/-- The `FeeCollected` event of `lib.rs` (lines 54-59).  The source fields
`from` / `to` are rendered `fromKey` / `toKey` because `from` is a Lean
keyword. -/
structure FeeCollected where
  fromKey : Pubkey
  toKey : Pubkey
  amount : Nat
deriving DecidableEq, Repr

/-- Execution errors of the operation, per the spec's taxonomy (§4.1/§7):
missing source signature, ledger-level transfer rejection, and runtime
account-shape validation failure. -/
inductive ExecError where
  | Unauthorized
  | TransferFailed
  | MalformedAccounts
deriving DecidableEq, Repr

/-- One invocation's inputs: the two account references of the `CollectFee`
context, whether the runtime verified a signature by `from` for this
invocation, whether the accounts pass the runtime's shape/ownership
validation, and the `amount` argument. -/
structure Invocation where
  fromKey : Pubkey
  toKey : Pubkey
  fromSigned : Bool
  accountsWellFormed : Bool
  amount : Nat

/-- Observable state: the balance ledger and the append-only event log. -/
structure ExecState where
  ledger : Ledger
  log : List FeeCollected

/-- Modelled from the spec: the ledger runtime's atomic native transfer
primitive (§6 `transfer(from, to, amount) -> Result<(), LedgerError>`),
which the handler invokes via `system_instruction::transfer` +
`invoke`; the primitive itself is not in `src/`.  It rejects an amount
exceeding the source balance, performs the debit, then rejects if the
credit would overflow the destination's u64 balance (§4.1: "insufficient
balance ... arithmetic overflow on the amount/balance addition"); debit
before credit is checked u64 arithmetic, so a self-transfer re-credits the
already-debited balance.  `none` is a rejection, after which no balance
has changed (ledger-level atomicity, §5). -/
def transfer (st : Ledger) (f t : Pubkey) (amount : Nat) : Option Ledger :=
  if amount ≤ st f then
    if Function.update st f (st f - amount) t + amount ≤ U64MAX then
      some (Function.update (Function.update st f (st f - amount)) t
        (Function.update st f (st f - amount) t + amount))
    else
      none
  else
    none

/-- The `collect_fee` handler (`lib.rs` lines 10-38) together with the
account validation Anchor performs for `CollectFee` (lines 41-52) before
the body runs: first the `from : Signer` check (field order puts it before
every other check; failure is `Unauthorized`), then the remaining runtime
shape/ownership validation (`MalformedAccounts`, modelled from the spec
§4.1 as a flag since it lives in the runtime, not in `src/`).  The body
submits the transfer; a rejection propagates as `TransferFailed` via `?`,
skipping the `emit!`.  On success exactly one `FeeCollected {from, to,
amount}` event is appended.  Errors leave the state untouched: nothing is
mutated before `invoke`, and the primitive is atomic. -/
def collect_fee (inv : Invocation) (st : ExecState) :
    Except ExecError Unit × ExecState :=
  if inv.fromSigned then
    if inv.accountsWellFormed then
      match transfer st.ledger inv.fromKey inv.toKey inv.amount with
      | some l =>
          (Except.ok (),
            ⟨l, st.log ++ [⟨inv.fromKey, inv.toKey, inv.amount⟩]⟩)
      | none => (Except.error ExecError.TransferFailed, st)
    else
      (Except.error ExecError.MalformedAccounts, st)
  else
    (Except.error ExecError.Unauthorized, st)

/-- A concrete ledger for witnesses: account 0 holds 1000 lamports,
account 1 holds 500, every other account 0 (the spec's §8 scenario). -/
def demoLedger : Ledger :=
  fun k => if k = 0 then 1000 else if k = 1 then 500 else 0

/-- A concrete ledger whose account 1 is already at the u64 maximum;
account 0 (and every other account) holds 5 lamports. -/
def overflowLedger : Ledger := fun k => if k = 1 then U64MAX else 5

/-- A concrete ledger where every account holds the u64 maximum. -/
def maxLedger : Ledger := fun _ => U64MAX

/-- The demo ledger's balances all fit in a u64. -/
theorem demoLedger_valid : ValidLedger demoLedger := by
  intro k
  by_cases h0 : k = 0
  · simp only [demoLedger, h0, if_true]
    decide
  · by_cases h1 : k = 1
    · simp [demoLedger, h0, h1]
      decide
    · simp [demoLedger, h0, h1]

/-- When the accounts are distinct, the amount is covered and the credit
fits in a u64, the transfer primitive succeeds: it debits the source and
credits the destination. -/
theorem transfer_ok (st : Ledger) (f t : Pubkey) (amount : Nat)
    (hne : f ≠ t) (hb : amount ≤ st f) (hov : st t + amount ≤ U64MAX) :
    transfer st f t amount =
      some (Function.update (Function.update st f (st f - amount)) t
        (st t + amount)) := by
  unfold transfer
  rw [if_pos hb]
  simp only [Function.update_noteq (Ne.symm hne)]
  rw [if_pos hov]

/-- A successful transfer touches no account other than its source and
destination. -/
theorem transfer_frame (st : Ledger) (f t : Pubkey) (amount : Nat)
    (l : Ledger) (h : transfer st f t amount = some l)
    (k : Pubkey) (hkf : k ≠ f) (hkt : k ≠ t) : l k = st k := by
  unfold transfer at h
  split at h
  · split at h
    · rw [Option.some_inj] at h
      subst h
      rw [Function.update_noteq hkt, Function.update_noteq hkf]
    · exact Option.noConfusion h
  · exact Option.noConfusion h

/-- C2: if the source's signature is missing or invalid, `collect_fee`
fails with `Unauthorized` and performs no state mutation: the post-state
(balances and event log) equals the pre-state. -/
theorem collect_fee_unauthorized (inv : Invocation) (st : ExecState)
    (h : inv.fromSigned = false) :
    collect_fee inv st = (Except.error ExecError.Unauthorized, st) := by
  simp [collect_fee, h]

/-- Witness for C2 at a concrete unsigned invocation. -/
theorem collect_fee_unauthorized_witness :
    Invocation.fromSigned ⟨0, 1, false, true, 300⟩ = false ∧
    collect_fee ⟨0, 1, false, true, 300⟩ ⟨demoLedger, []⟩ =
      (Except.error ExecError.Unauthorized, ⟨demoLedger, []⟩) :=
  ⟨rfl, collect_fee_unauthorized _ _ rfl⟩

/-- C3: with a validly signed source but `balance(source) < amount`, the
transfer primitive rejects, `collect_fee` returns `TransferFailed`, both
balances are unchanged, and no event is emitted (post-state = pre-state). -/
theorem collect_fee_insufficient (inv : Invocation) (st : ExecState)
    (hs : inv.fromSigned = true) (hw : inv.accountsWellFormed = true)
    (hb : st.ledger inv.fromKey < inv.amount) :
    collect_fee inv st = (Except.error ExecError.TransferFailed, st) := by
  simp [collect_fee, hs, hw, transfer, Nat.not_le.mpr hb]

/-- Witness for C3: balance 1000, amount 1500. -/
theorem collect_fee_insufficient_witness :
    Invocation.fromSigned ⟨0, 1, true, true, 1500⟩ = true ∧
    demoLedger 0 < 1500 ∧
    collect_fee ⟨0, 1, true, true, 1500⟩ ⟨demoLedger, []⟩ =
      (Except.error ExecError.TransferFailed, ⟨demoLedger, []⟩) :=
  ⟨rfl, by decide, collect_fee_insufficient _ _ rfl rfl (by decide)⟩

/-- C4: per invocation, either no event is appended and the result is not
success, or exactly one event (with the invocation's fields) is appended
and the transfer primitive succeeded yielding the post-ledger: at most one
emission, and an emission happens iff the transfer succeeded. -/
theorem collect_fee_event_iff_transfer (inv : Invocation) (st : ExecState) :
    ((collect_fee inv st).2.log = st.log ∧
      (collect_fee inv st).1 ≠ Except.ok ()) ∨
    ((collect_fee inv st).2.log =
        st.log ++ [⟨inv.fromKey, inv.toKey, inv.amount⟩] ∧
      transfer st.ledger inv.fromKey inv.toKey inv.amount =
        some (collect_fee inv st).2.ledger) := by
  cases hs : inv.fromSigned with
  | false => left; simp [collect_fee, hs]
  | true =>
    cases hw : inv.accountsWellFormed with
    | false => left; simp [collect_fee, hs, hw]
    | true =>
      cases ht : transfer st.ledger inv.fromKey inv.toKey inv.amount with
      | none => left; simp [collect_fee, hs, hw, ht]
      | some l => right; simp [collect_fee, hs, hw, ht]

/-- C5: every failing invocation is terminal and atomic — whatever the
error, the post-state (both balances and the event log) equals the
pre-state. -/
theorem collect_fee_failure_atomic (inv : Invocation) (st : ExecState)
    (e : ExecError) (h : (collect_fee inv st).1 = Except.error e) :
    (collect_fee inv st).2 = st := by
  cases hs : inv.fromSigned with
  | false => simp [collect_fee, hs]
  | true =>
    cases hw : inv.accountsWellFormed with
    | false => simp [collect_fee, hs, hw]
    | true =>
      cases ht : transfer st.ledger inv.fromKey inv.toKey inv.amount with
      | none => simp [collect_fee, hs, hw, ht]
      | some l => simp [collect_fee, hs, hw, ht] at h

/-- Witness for C5 at a concrete failing (unsigned) invocation. -/
theorem collect_fee_failure_atomic_witness :
    (collect_fee ⟨0, 1, false, true, 300⟩ ⟨demoLedger, []⟩).1 =
      Except.error ExecError.Unauthorized ∧
    (collect_fee ⟨0, 1, false, true, 300⟩ ⟨demoLedger, []⟩).2 =
      ⟨demoLedger, []⟩ :=
  ⟨rfl, collect_fee_failure_atomic _ _ ExecError.Unauthorized rfl⟩

/-- Counterexample to C1 as stated: a validly signed source with a
distinct destination and sufficient balance (5 ≥ 1) is NOT enough for
success — when the destination already holds the u64 maximum, the credit
overflows and the primitive rejects, so `collect_fee` returns
`TransferFailed` instead of succeeding. -/
theorem collect_fee_c1_counterexample :
    Invocation.fromSigned ⟨0, 1, true, true, 1⟩ = true ∧
    (0 : Pubkey) ≠ 1 ∧
    1 ≤ overflowLedger 0 ∧
    (collect_fee ⟨0, 1, true, true, 1⟩ ⟨overflowLedger, []⟩).1 =
      Except.error ExecError.TransferFailed :=
  ⟨rfl, by decide, by decide, rfl⟩

/-- C1 (amended): with a validly signed source, a distinct destination,
sufficient balance AND a destination credit that fits in a u64, the call
succeeds, the source is debited by `amount`, the destination credited by
`amount`, and exactly one `FeeCollected` event with the invocation's
fields is appended. -/
theorem collect_fee_success (inv : Invocation) (st : ExecState)
    (hs : inv.fromSigned = true) (hw : inv.accountsWellFormed = true)
    (hne : inv.fromKey ≠ inv.toKey)
    (hb : inv.amount ≤ st.ledger inv.fromKey)
    (hov : st.ledger inv.toKey + inv.amount ≤ U64MAX) :
    (collect_fee inv st).1 = Except.ok () ∧
    (collect_fee inv st).2.ledger inv.fromKey =
      st.ledger inv.fromKey - inv.amount ∧
    (collect_fee inv st).2.ledger inv.toKey =
      st.ledger inv.toKey + inv.amount ∧
    (collect_fee inv st).2.log =
      st.log ++ [⟨inv.fromKey, inv.toKey, inv.amount⟩] := by
  have ht := transfer_ok st.ledger inv.fromKey inv.toKey inv.amount hne hb hov
  refine ⟨by simp [collect_fee, hs, hw, ht], ?_, ?_,
    by simp [collect_fee, hs, hw, ht]⟩
  · simp [collect_fee, hs, hw, ht, Function.update_noteq hne,
      Function.update_same]
  · simp [collect_fee, hs, hw, ht, Function.update_same]

/-- Witness for amended C1: the spec's §8 scenario — balances 1000/500,
amount 300, post-balances 700/800, one event. -/
theorem collect_fee_success_witness :
    (collect_fee ⟨0, 1, true, true, 300⟩ ⟨demoLedger, []⟩).1 =
      Except.ok () ∧
    (collect_fee ⟨0, 1, true, true, 300⟩ ⟨demoLedger, []⟩).2.ledger 0 =
      700 ∧
    (collect_fee ⟨0, 1, true, true, 300⟩ ⟨demoLedger, []⟩).2.ledger 1 =
      800 ∧
    (collect_fee ⟨0, 1, true, true, 300⟩ ⟨demoLedger, []⟩).2.log =
      [⟨0, 1, 300⟩] := by
  have h := collect_fee_success ⟨0, 1, true, true, 300⟩ ⟨demoLedger, []⟩
    rfl rfl (by decide) (by decide) (by decide)
  simpa [demoLedger] using h

/-- C6: a zero-amount invocation with a validly signed source succeeds,
leaves the whole ledger unchanged, and still appends exactly one event
with amount 0. -/
theorem collect_fee_zero_amount (inv : Invocation) (st : ExecState)
    (hs : inv.fromSigned = true) (hw : inv.accountsWellFormed = true)
    (hz : inv.amount = 0) (hv : ValidLedger st.ledger) :
    collect_fee inv st =
      (Except.ok (),
        ⟨st.ledger, st.log ++ [⟨inv.fromKey, inv.toKey, 0⟩]⟩) := by
  have ht : transfer st.ledger inv.fromKey inv.toKey 0 =
      some st.ledger := by
    unfold transfer
    rw [if_pos (Nat.zero_le _)]
    simp only [Nat.sub_zero, Function.update_eq_self, Nat.add_zero]
    rw [if_pos (hv inv.toKey)]
  simp [collect_fee, hs, hw, hz, ht]

/-- Witness for C6: amount 0 on the demo ledger. -/
theorem collect_fee_zero_amount_witness :
    collect_fee ⟨0, 1, true, true, 0⟩ ⟨demoLedger, []⟩ =
      (Except.ok (), ⟨demoLedger, [⟨0, 1, 0⟩]⟩) :=
  collect_fee_zero_amount _ _ rfl rfl rfl demoLedger_valid

/-- Counterexample to C7 as stated: a self-transfer of the full balance.
Here pre-balance(destination) + amount = 2·U64MAX exceeds the u64
maximum, yet the primitive debits before it credits, so the credit lands
on the already-debited balance and succeeds — `collect_fee` returns
success, not `TransferFailed`. -/
theorem collect_fee_c7_counterexample :
    Invocation.fromSigned ⟨0, 0, true, true, U64MAX⟩ = true ∧
    U64MAX < maxLedger 0 + U64MAX ∧
    U64MAX ≤ maxLedger 0 ∧
    (collect_fee ⟨0, 0, true, true, U64MAX⟩ ⟨maxLedger, []⟩).1 =
      Except.ok () :=
  ⟨rfl, by decide, by decide, rfl⟩

/-- C7 (amended): when source and destination are DISTINCT and crediting
the destination would overflow a u64 (pre-balance(destination) + amount >
U64MAX), the primitive rejects, `collect_fee` fails with
`TransferFailed`, and no state mutation occurs. -/
theorem collect_fee_overflow (inv : Invocation) (st : ExecState)
    (hs : inv.fromSigned = true) (hw : inv.accountsWellFormed = true)
    (hne : inv.fromKey ≠ inv.toKey)
    (hov : U64MAX < st.ledger inv.toKey + inv.amount) :
    collect_fee inv st = (Except.error ExecError.TransferFailed, st) := by
  have ht : transfer st.ledger inv.fromKey inv.toKey inv.amount = none := by
    unfold transfer
    by_cases hb : inv.amount ≤ st.ledger inv.fromKey
    · rw [if_pos hb]
      simp only [Function.update_noteq (Ne.symm hne)]
      rw [if_neg (Nat.not_le.mpr hov)]
    · rw [if_neg hb]
  simp [collect_fee, hs, hw, ht]

/-- Witness for amended C7: destination at the u64 maximum, amount 3. -/
theorem collect_fee_overflow_witness :
    collect_fee ⟨0, 1, true, true, 3⟩ ⟨overflowLedger, []⟩ =
      (Except.error ExecError.TransferFailed, ⟨overflowLedger, []⟩) :=
  collect_fee_overflow _ _ rfl rfl (by decide) (by decide)

/-- C8: frame property — an invocation touches only the source balance,
the destination balance and the log: every other account's balance is
unchanged, and the log is either unchanged or extended by exactly the one
event of this invocation. -/
theorem collect_fee_frame (inv : Invocation) (st : ExecState) :
    (∀ k : Pubkey, k ≠ inv.fromKey → k ≠ inv.toKey →
      (collect_fee inv st).2.ledger k = st.ledger k) ∧
    ((collect_fee inv st).2.log = st.log ∨
      (collect_fee inv st).2.log =
        st.log ++ [⟨inv.fromKey, inv.toKey, inv.amount⟩]) := by
  cases hs : inv.fromSigned with
  | false =>
    exact ⟨fun k _ _ => by simp [collect_fee, hs],
      Or.inl (by simp [collect_fee, hs])⟩
  | true =>
    cases hw : inv.accountsWellFormed with
    | false =>
      exact ⟨fun k _ _ => by simp [collect_fee, hs, hw],
        Or.inl (by simp [collect_fee, hs, hw])⟩
    | true =>
      cases ht : transfer st.ledger inv.fromKey inv.toKey inv.amount with
      | none =>
        exact ⟨fun k _ _ => by simp [collect_fee, hs, hw, ht],
          Or.inl (by simp [collect_fee, hs, hw, ht])⟩
      | some l =>
        refine ⟨fun k hkf hkt => ?_,
          Or.inr (by simp [collect_fee, hs, hw, ht])⟩
        have hl := transfer_frame st.ledger inv.fromKey inv.toKey
          inv.amount l ht k hkf hkt
        simpa [collect_fee, hs, hw, ht] using hl

/-- Witness for C8: account 5 is untouched by a 0 → 1 transfer. -/
theorem collect_fee_frame_witness :
    (collect_fee ⟨0, 1, true, true, 300⟩ ⟨demoLedger, []⟩).2.ledger 5 =
      demoLedger 5 :=
  (collect_fee_frame ⟨0, 1, true, true, 300⟩ ⟨demoLedger, []⟩).1 5
    (by decide) (by decide)

/-- C9: no distinctness check exists — a validly signed self-transfer
with sufficient balance succeeds, leaves the ledger unchanged (debit and
credit cancel), and appends one event whose from and to fields are
equal. -/
theorem collect_fee_self_transfer (inv : Invocation) (st : ExecState)
    (hs : inv.fromSigned = true) (hw : inv.accountsWellFormed = true)
    (heq : inv.toKey = inv.fromKey)
    (hb : inv.amount ≤ st.ledger inv.fromKey)
    (hv : ValidLedger st.ledger) :
    collect_fee inv st =
      (Except.ok (),
        ⟨st.ledger,
          st.log ++ [⟨inv.fromKey, inv.fromKey, inv.amount⟩]⟩) := by
  have ht : transfer st.ledger inv.fromKey inv.fromKey inv.amount =
      some st.ledger := by
    unfold transfer
    rw [if_pos hb]
    rw [Function.update_same]
    rw [Nat.sub_add_cancel hb]
    rw [if_pos (hv inv.fromKey)]
    rw [Function.update_idem, Function.update_eq_self]
  simp [collect_fee, hs, hw, heq, ht]

/-- Witness for C9: account 0 transfers its full 1000 balance to itself. -/
theorem collect_fee_self_transfer_witness :
    collect_fee ⟨0, 0, true, true, 1000⟩ ⟨demoLedger, []⟩ =
      (Except.ok (), ⟨demoLedger, [⟨0, 0, 1000⟩]⟩) :=
  collect_fee_self_transfer _ _ rfl rfl rfl (by decide) demoLedger_valid

/-- C10: `collect_fee` is deterministic — equal inputs give equal
results — and on success the emitted event carries exactly the
invocation's source key, destination key and amount, passed through
unmodified. -/
theorem collect_fee_deterministic (inv inv' : Invocation)
    (st st' : ExecState) (hinv : inv = inv') (hst : st = st') :
    collect_fee inv st = collect_fee inv' st' ∧
    ((collect_fee inv st).1 = Except.ok () →
      (collect_fee inv st).2.log =
        st.log ++ [⟨inv.fromKey, inv.toKey, inv.amount⟩]) := by
  subst hinv
  subst hst
  refine ⟨rfl, fun h => ?_⟩
  cases hs : inv.fromSigned with
  | false => simp [collect_fee, hs] at h
  | true =>
    cases hw : inv.accountsWellFormed with
    | false => simp [collect_fee, hs, hw] at h
    | true =>
      cases ht : transfer st.ledger inv.fromKey inv.toKey inv.amount with
      | none => simp [collect_fee, hs, hw, ht] at h
      | some l => simp [collect_fee, hs, hw, ht]

/-- Witness for C10 at a concrete invocation. -/
theorem collect_fee_deterministic_witness :
    collect_fee ⟨0, 1, true, true, 300⟩ ⟨demoLedger, []⟩ =
      collect_fee ⟨0, 1, true, true, 300⟩ ⟨demoLedger, []⟩ ∧
    (collect_fee ⟨0, 1, true, true, 300⟩ ⟨demoLedger, []⟩).2.log =
      [⟨0, 1, 300⟩] := by
  have h := collect_fee_deterministic ⟨0, 1, true, true, 300⟩
    ⟨0, 1, true, true, 300⟩ ⟨demoLedger, []⟩ ⟨demoLedger, []⟩ rfl rfl
  exact ⟨h.1, h.2 rfl⟩

end FeeCollector
